import Mathlib

/-!
Verification development for the FusionAPI request-plane core.

The definitions below are a shallow embedding, in Lean 4, of the Go source
of the FusionAPI gateway: the rate limiter (`internal/core/ratelimit.go`),
the authentication middleware (`internal/api/middleware.go`), the proxy
executor (`internal/api/proxy.go`), the router and source registry
(`internal/core/router.go`, `internal/core/source.go`,
`internal/model/source.go`), the FC compatibility layer
(`internal/api/fc_compat.go`), the health checker
(`internal/core/health.go`) and the tool detector
(`internal/core/tooldetect.go`).

Modelling conventions:
  * Go `time.Time` values are integers (nanoseconds); `time.Minute` is the
    integer constant `minuteNs`.
  * Go maps keyed by strings are total functions `String → _` with a
    pointwise update helper `upd`; a missing entry is the zero value.
  * The date string `now.Format("2006-01-02")` is passed alongside `now`
    as an explicit `today` argument, since every admission call derives
    both from the same clock reading.
  * Reason strings keep their constant text; the numeric counters that Go
    interpolates with `fmt.Sprintf` are elided.
-/

namespace FusionAPI

/-- Pointwise update of a total map, the analogue of `m[k] = v` on a Go map. -/
def upd {α : Type} (f : String → α) (k : String) (v : α) : String → α :=
  fun x => if x = k then v else f x

/-- Increment a counter map at a key (`m[k]++`). -/
def bump (f : String → Int) (k : String) : String → Int :=
  upd f k (f k + 1)

@[simp] theorem upd_same {α : Type} (f : String → α) (k : String) (v : α) :
    upd f k v k = v := by simp [upd]

theorem upd_other {α : Type} (f : String → α) (k x : String) (v : α) (h : x ≠ k) :
    upd f k v x = f x := by simp [upd, h]

/-- One minute in nanoseconds (`time.Minute`). -/
def minuteNs : Int := 60 * 1000000000

/-- Auto-ban duration: 30 minutes (`AutoBanDuration` in ratelimit.go). -/
def autoBanDuration : Int := 30 * minuteNs

/-- Consecutive-error threshold that arms the auto-ban (`AutoBanThreshold`). -/
def autoBanThreshold : Int := 50

/-- Per-credential limits (`model.KeyLimits`).  `toolQuotas` models the Go
map `map[string]int` as an association list with unique keys. -/
structure KeyLimits where
  rpm : Int
  dailyQuota : Int
  concurrent : Int
  toolQuotas : List (String × Int)
deriving DecidableEq, Repr

/-- The rate limiter's five maps (`core.RateLimiter`), all guarded by one
mutex in Go; here a plain state record threaded through each operation. -/
structure RLState where
  windows : String → List Int
  dailyCount : String → Int
  concurrent : String → Int
  errorCount : String → Int
  autoBanned : String → Option Int

/-- The all-empty limiter state (`NewRateLimiter`). -/
def RLState.empty : RLState :=
  { windows := fun _ => [], dailyCount := fun _ => 0, concurrent := fun _ => 0,
    errorCount := fun _ => 0, autoBanned := fun _ => none }

/-- Composite key `keyID + ":" + date` for the daily counter. -/
def dailyKey (keyID today : String) : String := keyID ++ ":" ++ today

/-- Composite key `keyID + ":" + tool + ":" + date` for the per-tool counter. -/
def toolKey (keyID tool today : String) : String := keyID ++ ":" ++ tool ++ ":" ++ today

/-- Drop RPM timestamps that are not strictly after `windowStart`
(the `t.After(windowStart)` filter loop). -/
def purgeWindow (ts : List Int) (windowStart : Int) : List Int :=
  ts.filter (fun t => windowStart < t)

/-- The per-tool quota that applies to this call, if any: tool non-empty and
not `unknown`, quota map non-empty, tool present with a positive quota
(the guard around `toolDateKey` in `Enter`/`AllowWithTool`). -/
def toolQuotaFor (limits : KeyLimits) (tool : String) : Option Int :=
  if tool ≠ "" ∧ tool ≠ "unknown" ∧ limits.toolQuotas ≠ [] then
    match limits.toolQuotas.lookup tool with
    | some q => if 0 < q then some q else none
    | none => none
  else none

/-- Result triple of `RateLimiter.Enter` (release closure modelled
separately as `enterRelease`). -/
structure EnterResult where
  allowed : Bool
  reason : String
  state : RLState

/-- Shallow embedding of `RateLimiter.Enter` (ratelimit.go lines 44-125):
atomic check + accounting + concurrent token acquisition.  Checks run in
the order RPM, daily, tool, concurrent; accounting happens only after all
checks pass.  Note that `Enter` never consults the auto-ban map. -/
def Enter (s : RLState) (keyID : String) (limits : KeyLimits) (tool : String)
    (now : Int) (today : String) : EnterResult :=
  let windowStart := now - minuteNs
  -- Check RPM (cleaning old entries is a write-back even on rejection)
  let s1 := if 0 < limits.rpm then
      { s with windows := upd s.windows keyID (purgeWindow (s.windows keyID) windowStart) }
    else s
  if 0 < limits.rpm ∧ limits.rpm ≤ ((s1.windows keyID).length : Int) then
    { allowed := false, reason := "RPM limit exceeded", state := s1 }
  else if 0 < limits.dailyQuota ∧ limits.dailyQuota ≤ s1.dailyCount (dailyKey keyID today) then
    { allowed := false, reason := "Daily quota exceeded", state := s1 }
  else
    match toolQuotaFor limits tool with
    | some q =>
      if q ≤ s1.dailyCount (toolKey keyID tool today) then
        { allowed := false, reason := "Tool quota exceeded", state := s1 }
      else if 0 < limits.concurrent ∧ limits.concurrent ≤ s1.concurrent keyID then
        { allowed := false, reason := "Concurrent limit exceeded", state := s1 }
      else
        let s2 := if 0 < limits.rpm then
            { s1 with windows := upd s1.windows keyID (s1.windows keyID ++ [now]) }
          else s1
        let s3 := if 0 < limits.dailyQuota then
            { s2 with dailyCount := bump s2.dailyCount (dailyKey keyID today) }
          else s2
        let s4 := { s3 with dailyCount := bump s3.dailyCount (toolKey keyID tool today) }
        let s5 := if 0 < limits.concurrent then
            { s4 with concurrent := upd s4.concurrent keyID (s4.concurrent keyID + 1) }
          else s4
        { allowed := true, reason := "", state := s5 }
    | none =>
      if 0 < limits.concurrent ∧ limits.concurrent ≤ s1.concurrent keyID then
        { allowed := false, reason := "Concurrent limit exceeded", state := s1 }
      else
        let s2 := if 0 < limits.rpm then
            { s1 with windows := upd s1.windows keyID (s1.windows keyID ++ [now]) }
          else s1
        let s3 := if 0 < limits.dailyQuota then
            { s2 with dailyCount := bump s2.dailyCount (dailyKey keyID today) }
          else s2
        let s5 := if 0 < limits.concurrent then
            { s3 with concurrent := upd s3.concurrent keyID (s3.concurrent keyID + 1) }
          else s3
        { allowed := true, reason := "", state := s5 }

/-- Shallow embedding of `RateLimiter.AllowWithTool` (current revision,
ratelimit.go lines 173-228): same checks and accounting as `Enter` for
RPM, daily and tool quotas, but no concurrency check or token. -/
def AllowWithTool (s : RLState) (keyID : String) (limits : KeyLimits) (tool : String)
    (now : Int) (today : String) : EnterResult :=
  let windowStart := now - minuteNs
  let s1 := if 0 < limits.rpm then
      { s with windows := upd s.windows keyID (purgeWindow (s.windows keyID) windowStart) }
    else s
  if 0 < limits.rpm ∧ limits.rpm ≤ ((s1.windows keyID).length : Int) then
    { allowed := false, reason := "RPM limit exceeded", state := s1 }
  else if 0 < limits.dailyQuota ∧ limits.dailyQuota ≤ s1.dailyCount (dailyKey keyID today) then
    { allowed := false, reason := "Daily quota exceeded", state := s1 }
  else
    match toolQuotaFor limits tool with
    | some q =>
      if q ≤ s1.dailyCount (toolKey keyID tool today) then
        { allowed := false, reason := "Tool quota exceeded", state := s1 }
      else
        let s2 := if 0 < limits.rpm then
            { s1 with windows := upd s1.windows keyID (s1.windows keyID ++ [now]) }
          else s1
        let s3 := if 0 < limits.dailyQuota then
            { s2 with dailyCount := bump s2.dailyCount (dailyKey keyID today) }
          else s2
        let s4 := { s3 with dailyCount := bump s3.dailyCount (toolKey keyID tool today) }
        { allowed := true, reason := "", state := s4 }
    | none =>
      let s2 := if 0 < limits.rpm then
          { s1 with windows := upd s1.windows keyID (s1.windows keyID ++ [now]) }
        else s1
      let s3 := if 0 < limits.dailyQuota then
          { s2 with dailyCount := bump s2.dailyCount (dailyKey keyID today) }
        else s2
      { allowed := true, reason := "", state := s3 }

/-- Shallow embedding of `RateLimiter.AcquireConcurrent`: unconditional
increment, no limit check. -/
def AcquireConcurrent (s : RLState) (keyID : String) : RLState :=
  { s with concurrent := upd s.concurrent keyID (s.concurrent keyID + 1) }

/-- Shallow embedding of `RateLimiter.ReleaseConcurrent`: decrement with a
floor at zero. -/
def ReleaseConcurrent (s : RLState) (keyID : String) : RLState :=
  { s with concurrent :=
      (upd s.concurrent keyID
        (if 0 < s.concurrent keyID then s.concurrent keyID - 1 else s.concurrent keyID)) }

/-- One application of the release closure returned by `Enter` (the body
inside `once.Do`): no-op when `limits.Concurrent <= 0`, otherwise a
floored decrement. -/
def enterRelease (limits : KeyLimits) (s : RLState) (keyID : String) : RLState :=
  if limits.concurrent ≤ 0 then s else ReleaseConcurrent s keyID

/-- Shallow embedding of `RateLimiter.IsAutoBanned`: reports an active ban;
an expired ban is cleared together with the error counter as a side
effect. -/
def IsAutoBanned (s : RLState) (keyID : String) (now : Int) :
    Bool × Int × RLState :=
  match s.autoBanned keyID with
  | none => (false, 0, s)
  | some banTime =>
    let elapsed := now - banTime
    if autoBanDuration ≤ elapsed then
      (false, 0,
        { s with
          autoBanned := upd s.autoBanned keyID none,
          errorCount := upd s.errorCount keyID 0 })
    else (true, autoBanDuration - elapsed, s)

/-- Shallow embedding of `RateLimiter.RecordError`: bump the consecutive
error counter and arm the ban at the threshold. -/
def RecordError (s : RLState) (keyID : String) (now : Int) : Bool × RLState :=
  let c := s.errorCount keyID + 1
  let s' := { s with errorCount := upd s.errorCount keyID c }
  if autoBanThreshold ≤ c then
    (true, { s' with autoBanned := upd s'.autoBanned keyID (some now) })
  else (false, s')

/-- Shallow embedding of `RateLimiter.RecordSuccess`: reset the error
counter. -/
def RecordSuccess (s : RLState) (keyID : String) : RLState :=
  { s with errorCount := upd s.errorCount keyID 0 }

/-- Outcome of the rate-limit section of the authentication middleware. -/
inductive AdmitOutcome where
  | rejected (httpStatus : Int) (code : String)
  | admitted
deriving DecidableEq, Repr

/-- Shallow embedding of the rate-limit portion of `AuthMiddleware`
(middleware.go lines 94-120): `IsAutoBanned` first (403 `key_auto_banned`
on an active ban), then `AllowWithTool` (429 `rate_limit_exceeded` on a
quota rejection).  Note that the middleware calls `AllowWithTool`, not
`Enter`, and acquires no concurrency token. -/
def servingAdmit (s : RLState) (keyID : String) (limits : KeyLimits) (tool : String)
    (now : Int) (today : String) : AdmitOutcome × RLState :=
  let r := IsAutoBanned s keyID now
  if r.1 then (AdmitOutcome.rejected 403 "key_auto_banned", r.2.2)
  else
    let e := AllowWithTool r.2.2 keyID limits tool now today
    if e.allowed then (AdmitOutcome.admitted, e.state)
    else (AdmitOutcome.rejected 429 "rate_limit_exceeded", e.state)

/-- Shallow embedding of the concurrent-tracking block at the top of
`ProxyHandler.ChatCompletions` (proxy.go lines 66-70): an unconditional
`AcquireConcurrent` with a deferred `ReleaseConcurrent`. -/
def handlerEnter (s : RLState) (keyID : String) : RLState :=
  AcquireConcurrent s keyID

/-- The deferred release at the end of `ChatCompletions`. -/
def handlerExit (s : RLState) (keyID : String) : RLState :=
  ReleaseConcurrent s keyID

/-- No-mutation property for a rejected admission: daily and per-tool
counters (both live in `dailyCount`), the concurrent count, the error
counter and the ban map are untouched, and the RPM window is either
untouched or merely purged of entries older than one minute
(`windowStart = now - minuteNs`). -/
def rejectionKeepsCounters (s s' : RLState) (keyID : String) (windowStart : Int) : Prop :=
  s'.dailyCount = s.dailyCount ∧ s'.concurrent = s.concurrent ∧
  s'.errorCount = s.errorCount ∧ s'.autoBanned = s.autoBanned ∧
  (s'.windows = s.windows ∨
    s'.windows = upd s.windows keyID (purgeWindow (s.windows keyID) windowStart))

/-! ### Claim C1 — a rejected admission mutates no counter -/

/-- C1: for every admission call on the rate limiter (`Enter` or
`AllowWithTool`) that returns `admitted = false`, the call leaves every
counter unchanged: the daily counter, the per-tool counter, the concurrent
count, the error counter and the ban map are untouched, and the RPM window
is at most purged of entries older than one minute; this holds for every
rejection reason. -/
theorem C1_rejected_admission_keeps_counters (s : RLState) (keyID : String)
    (limits : KeyLimits) (tool : String) (now : Int) (today : String) :
    ((Enter s keyID limits tool now today).allowed = false →
      rejectionKeepsCounters s (Enter s keyID limits tool now today).state keyID
        (now - minuteNs)) ∧
    ((AllowWithTool s keyID limits tool now today).allowed = false →
      rejectionKeepsCounters s (AllowWithTool s keyID limits tool now today).state keyID
        (now - minuteNs)) := by
  constructor
  · intro h
    cases hE : Enter s keyID limits tool now today with
    | mk a r st =>
      rw [hE] at h
      simp only at h
      subst h
      simp only [Enter] at hE
      repeat' split at hE
      all_goals injection hE with h1 h2 h3
      all_goals first
        | (subst h3; simp [rejectionKeepsCounters]; done)
        | simp at h1
  · intro h
    cases hE : AllowWithTool s keyID limits tool now today with
    | mk a r st =>
      rw [hE] at h
      simp only at h
      subst h
      simp only [AllowWithTool] at hE
      repeat' split at hE
      all_goals injection hE with h1 h2 h3
      all_goals first
        | (subst h3; simp [rejectionKeepsCounters]; done)
        | simp at h1

def c1State : RLState :=
  { RLState.empty with windows := upd RLState.empty.windows "k1" [0] }

def c1Limits : KeyLimits :=
  { rpm := 1, dailyQuota := 0, concurrent := 0, toolQuotas := [] }

/-- Witness for C1: with `RPM = 1` and one request already in the window,
a second call at `now = 1` is rejected and the theorem applies. -/
theorem C1_witness :
    rejectionKeepsCounters c1State
      (Enter c1State "k1" c1Limits "" 1 "d").state "k1" (1 - minuteNs) ∧
    rejectionKeepsCounters c1State
      (AllowWithTool c1State "k1" c1Limits "" 1 "d").state "k1" (1 - minuteNs) :=
  ⟨(C1_rejected_admission_keeps_counters c1State "k1" c1Limits "" 1 "d").1 (by decide),
   (C1_rejected_admission_keeps_counters c1State "k1" c1Limits "" 1 "d").2 (by decide)⟩

/-! ### Claim C2 — the concurrency cap on the serving path -/

def c2Limits : KeyLimits := { rpm := 0, dailyQuota := 0, concurrent := 1, toolQuotas := [] }

def c2FirstAdmit : AdmitOutcome × RLState :=
  servingAdmit RLState.empty "k1" c2Limits "unknown" 0 "d"

/-- State while the first request is in flight (middleware admiting, then
the handler acquiring the token). -/
def c2Mid : RLState := handlerEnter c2FirstAdmit.2 "k1"

def c2SecondAdmit : AdmitOutcome × RLState :=
  servingAdmit c2Mid "k1" c2Limits "unknown" 0 "d"

def c2Both : RLState := handlerEnter c2SecondAdmit.2 "k1"

/-- C2 (evaluation at the failing input): with `Concurrent = 1`, the
serving path — `AuthMiddleware` admission (`IsAutoBanned` +
`AllowWithTool`) followed by the handler's unconditional
`AcquireConcurrent` — admits a second request while the first is still in
flight, driving the in-flight count to 2 > 1.  `AllowWithTool` performs no
concurrency check and the token is acquired in the handler, not in the
middleware, so the cap is not enforced.  After both requests release, the
counter does return to exactly 0. -/
theorem C2_concurrency_cap_bypassed :
    c2Limits.concurrent = 1 ∧
    c2FirstAdmit.1 = AdmitOutcome.admitted ∧
    c2SecondAdmit.1 = AdmitOutcome.admitted ∧
    c2Both.concurrent "k1" = 2 ∧
    (handlerExit (handlerExit c2Both "k1") "k1").concurrent "k1" = 0 := by
  decide

/-! ### Claim C5 — where the auto-ban check happens -/

def c5Banned : RLState :=
  { RLState.empty with autoBanned := upd RLState.empty.autoBanned "k1" (some 0) }

def c5Limits : KeyLimits := { rpm := 0, dailyQuota := 0, concurrent := 0, toolQuotas := [] }

/-- C5 counterexample: at `now = 1` the key `k1` is auto-banned and the ban
is not expired, yet `Enter` admits the call — `Enter` performs no auto-ban
check at all, contradicting the claim that auto-ban is its first step. -/
theorem C5_counterexample :
    (IsAutoBanned c5Banned "k1" 1).1 = true ∧
    (Enter c5Banned "k1" c5Limits "" 1 "d").allowed = true := by
  decide

theorem AllowWithTool_keeps_ban_and_errors (s : RLState) (keyID : String)
    (limits : KeyLimits) (tool : String) (now : Int) (today : String) :
    (AllowWithTool s keyID limits tool now today).state.autoBanned = s.autoBanned ∧
    (AllowWithTool s keyID limits tool now today).state.errorCount = s.errorCount := by
  cases hE : AllowWithTool s keyID limits tool now today with
  | mk a r st =>
    simp only [AllowWithTool] at hE
    repeat' split at hE
    all_goals injection hE with h1 h2 h3
    all_goals subst h3
    all_goals simp

/-- C5 (amended): the auto-ban evaluation is the first step of admission,
but it lives in the authentication middleware (`IsAutoBanned`), not inside
`Enter`.  With an unexpired ban the middleware rejects with
`key_auto_banned` and changes no state; with an expired ban the ban and the
consecutive-error counter are cleared and admission continues with
`AllowWithTool`.  `Enter` itself never consults the ban map: its verdict is
unchanged under any rewrite of `autoBanned`. -/
theorem C5_autoban_checked_in_middleware (s : RLState) (keyID : String)
    (limits : KeyLimits) (tool : String) (now : Int) (today : String) (banTime : Int)
    (hban : s.autoBanned keyID = some banTime) :
    (now - banTime < autoBanDuration →
      servingAdmit s keyID limits tool now today =
        (AdmitOutcome.rejected 403 "key_auto_banned", s)) ∧
    (autoBanDuration ≤ now - banTime →
      (servingAdmit s keyID limits tool now today).2.autoBanned keyID = none ∧
      (servingAdmit s keyID limits tool now today).2.errorCount keyID = 0) ∧
    (∀ f, (Enter { s with autoBanned := f } keyID limits tool now today).allowed =
      (Enter s keyID limits tool now today).allowed) := by
  refine ⟨?_, ?_, ?_⟩
  · intro hlt
    have hc : ¬ (autoBanDuration ≤ now - banTime) := by omega
    simp [servingAdmit, IsAutoBanned, hban, hc]
  · intro hge
    simp only [servingAdmit, IsAutoBanned, hban]
    rw [if_pos hge]
    simp only [Bool.false_eq_true, if_false]
    have hk := AllowWithTool_keeps_ban_and_errors
      { s with autoBanned := upd s.autoBanned keyID none,
               errorCount := upd s.errorCount keyID 0 } keyID limits tool now today
    constructor
    · split <;> simp [hk.1, upd]
    · split <;> simp [hk.2, upd]
  · intro f
    cases h1 : toolQuotaFor limits tool <;> by_cases hr : 0 < limits.rpm <;>
      simp [Enter, h1, hr, apply_ite EnterResult.allowed]

/-- Witness for C5 (amended): the banned key `k1` at `now = 1` is rejected
by the middleware with `key_auto_banned` and the state is untouched. -/
theorem C5_witness :
    servingAdmit c5Banned "k1" c5Limits "" 1 "d" =
      (AdmitOutcome.rejected 403 "key_auto_banned", c5Banned) :=
  (C5_autoban_checked_in_middleware c5Banned "k1" c5Limits "" 1 "d" 0 (by decide)).1
    (by decide)

/-! ### Source registry and router (source.go, model/source.go, router.go) -/

/-- Upstream source types (`model.SourceType`). -/
inductive SourceType where
  | newapi | cpa | openai | anthropic | custom
deriving DecidableEq, Repr

/-- Health states (`model.HealthState`). -/
inductive HealthState where
  | healthy | unhealthy | removed
deriving DecidableEq, Repr

/-- Declared capability set (`model.Capabilities`). -/
structure Capabilities where
  functionCalling : Bool
  extendedThinking : Bool
  vision : Bool
  models : List String
deriving DecidableEq, Repr

/-- Aggregator-specific configuration (`model.CPAConfig`). -/
structure CPAConfig where
  providers : List String
  accountMode : String
  autoDetect : Bool
deriving DecidableEq, Repr

/-- Fixed provider capability matrix (`model.CPAProviderCapabilities`). -/
def cpaProviderCap (p : String) : Option (Bool × Bool) :=
  if p = "gemini" then some (true, true)
  else if p = "claude" then some (true, true)
  else if p = "codex" then some (true, true)
  else if p = "qwen" then some (false, true)
  else none

/-- Runtime status record (`model.SourceStatus`).  Latency is nanoseconds;
the balance (a float64 in Go) is modelled as an integer, which preserves
its ordering role in the `least-cost` strategy. -/
structure SourceStatus where
  state : HealthState
  latency : Int
  balance : Int
  lastCheck : Int
  errorCount : Int
  lastError : String
  consecutiveFail : Int
  modelProviders : List (String × String)
deriving DecidableEq, Repr

/-- One upstream source record (`model.Source`).  `status = none` models a
nil `Status` pointer. -/
structure Source where
  id : String
  name : String
  type : SourceType
  priority : Int
  weight : Int
  enabled : Bool
  capabilities : Capabilities
  cpa : Option CPAConfig
  status : Option SourceStatus
deriving DecidableEq, Repr

/-- `Source.IsHealthy`: a nil status counts as healthy. -/
def Source.isHealthy (s : Source) : Bool :=
  match s.status with
  | none => true
  | some st => st.state = HealthState.healthy

/-- `Source.SupportsModel`: an empty declared model list admits every
model. -/
def Source.supportsModel (s : Source) (m : String) : Bool :=
  s.capabilities.models = [] ∨ m ∈ s.capabilities.models

/-- `Source.GetProviderForModel`: detected provider for a model, empty
string when unknown (nil status or missing entry). -/
def Source.getProviderForModel (s : Source) (m : String) : String :=
  match s.status with
  | none => ""
  | some st =>
    match st.modelProviders.lookup m with
    | some p => p
    | none => ""

/-- `Source.GetEffectiveCPAProviders`: the configured provider list,
truncated to its first element in `single` account mode. -/
def Source.getEffectiveCPAProviders (s : Source) : List String :=
  match s.cpa with
  | none => []
  | some c =>
    if c.providers = [] then []
    else if c.accountMode = "single" ∧ 1 < c.providers.length then c.providers.take 1
    else c.providers

/-- `Source.IsCPAProviderEnabled`: the empty provider is never enabled; an
empty effective list enables everything. -/
def Source.isCPAProviderEnabled (s : Source) (p : String) : Bool :=
  if p = "" then false
  else
    let eff := s.getEffectiveCPAProviders
    if eff = [] then true else p ∈ eff

/-- `Source.SupportsFCForModel`: for non-aggregators the declared FC bit;
for `cpa` the detected provider capability, with a conservative fallback
over the enabled providers when no provider was detected. -/
def Source.supportsFCForModel (s : Source) (m : String) : Bool :=
  if s.type ≠ SourceType.cpa then s.capabilities.functionCalling
  else
    let provider := s.getProviderForModel m
    if provider ≠ "" ∧ ¬ s.isCPAProviderEnabled provider then false
    else if provider = "" then
      match s.cpa with
      | some c =>
        if c.providers ≠ [] then
          s.getEffectiveCPAProviders.any (fun p =>
            match cpaProviderCap p with
            | some cap => cap.1
            | none => false)
        else s.capabilities.functionCalling
      | none => s.capabilities.functionCalling
    else
      match cpaProviderCap provider with
      | some cap => cap.1
      | none => false

/-- Admission predicate of one iteration of the `GetByCapability` loop
(source.go lines 171-204): the `continue` conditions, negated. -/
def getByCapAdmits (needFC needThinking needVision : Bool) (modelName : String)
    (src : Source) : Bool :=
  src.enabled ∧ src.isHealthy ∧
  (if src.type = SourceType.cpa then
    (¬ (modelName ≠ "" ∧ src.getProviderForModel modelName ≠ "" ∧
        ¬ src.isCPAProviderEnabled (src.getProviderForModel modelName))) ∧
    (¬ needThinking) ∧
    (¬ (needFC ∧ ¬ src.supportsFCForModel modelName))
  else
    (¬ (needFC ∧ ¬ src.capabilities.functionCalling)) ∧
    (¬ (needThinking ∧ ¬ src.capabilities.extendedThinking))) ∧
  (¬ (needVision ∧ ¬ src.capabilities.vision)) ∧
  (¬ (modelName ≠ "" ∧ ¬ src.supportsModel modelName))

/-- `SourceManager.GetByCapability`: the registry map is modelled as a list
of sources; the loop keeps exactly the admitted ones in order. -/
def GetByCapability (sources : List Source) (needFC needThinking needVision : Bool)
    (modelName : String) : List Source :=
  sources.filter (getByCapAdmits needFC needThinking needVision modelName)

/-! ### Chat request model (model/chat.go) -/

/-- Function definition inside a tool (`model.Function`). -/
structure FunctionDef where
  name : String
deriving DecidableEq, Repr

/-- Tool definition (`model.Tool`). -/
structure ToolDef where
  type : String
  function : FunctionDef
deriving DecidableEq, Repr

/-- Function-call payload (`model.FunctionCall`): name and raw JSON
arguments. -/
structure FunctionCall where
  name : String
  arguments : String
deriving DecidableEq, Repr

/-- Tool-call entry (`model.ToolCall`). -/
structure ToolCall where
  id : String
  type : String
  function : FunctionCall
deriving DecidableEq, Repr

/-- Message content (`any` in Go): a plain string, a list of typed parts
(each part a `(type, text)` pair), or JSON null. -/
inductive MsgContent where
  | str (s : String)
  | parts (ps : List (String × String))
  | nullc
deriving DecidableEq, Repr

/-- Chat message (`model.Message`). -/
structure Message where
  role : String
  content : MsgContent
  name : String
  toolCalls : List ToolCall
  toolCallId : String
  functionCall : Option FunctionCall
deriving DecidableEq, Repr

/-- Extended-thinking configuration (`model.ThinkingConfig`). -/
structure ThinkingConfig where
  type : String
  budgetTokens : Int
deriving DecidableEq, Repr

/-- Chat request (`model.ChatCompletionRequest`), restricted to the fields
the router and translator consult. -/
structure ChatCompletionRequest where
  model : String
  messages : List Message
  stream : Bool
  tools : List ToolDef
  functions : List FunctionDef
  thinking : Option ThinkingConfig
deriving DecidableEq, Repr

/-- `ChatCompletionRequest.HasTools`: either tool list is non-empty. -/
def ChatCompletionRequest.hasTools (r : ChatCompletionRequest) : Bool :=
  r.tools ≠ [] ∨ r.functions ≠ []

/-- `ChatCompletionRequest.HasThinking`: thinking present with type
`enabled`. -/
def ChatCompletionRequest.hasThinking (r : ChatCompletionRequest) : Bool :=
  match r.thinking with
  | some t => t.type = "enabled"
  | none => false

/-- `ChatCompletionRequest.HasVision`: some message content part has type
`image_url`. -/
def ChatCompletionRequest.hasVision (r : ChatCompletionRequest) : Bool :=
  r.messages.any (fun m =>
    match m.content with
    | MsgContent.parts ps => ps.any (fun p => p.1 = "image_url")
    | _ => false)

/-! ### Router (router.go) -/

/-- Insertion of one element into a list sorted by `le` (helper realizing
`sort.Slice`; the Go sort is unspecified on ties, insertion sort is one
admissible order). -/
def insertSorted (le : Source → Source → Bool) (x : Source) : List Source → List Source
  | [] => [x]
  | y :: ys => if le x y then x :: y :: ys else y :: insertSorted le x ys

/-- Insertion sort over sources. -/
def sortSrc (le : Source → Source → Bool) : List Source → List Source
  | [] => []
  | x :: xs => insertSorted le x (sortSrc le xs)

theorem mem_insertSorted (le : Source → Source → Bool) (x a : Source) :
    ∀ l, a ∈ insertSorted le x l ↔ a = x ∨ a ∈ l := by
  intro l
  induction l with
  | nil => simp [insertSorted]
  | cons y ys ih =>
    simp only [insertSorted]
    split
    · simp
    · simp [ih]; tauto

theorem mem_sortSrc (le : Source → Source → Bool) (a : Source) :
    ∀ l, a ∈ sortSrc le l ↔ a ∈ l := by
  intro l
  induction l with
  | nil => simp [sortSrc]
  | cons x xs ih => simp [sortSrc, mem_insertSorted, ih]

/-- Status accessor (`Source.GetStatus`): a nil status reads as a fresh
healthy record. -/
def Source.getStatus (s : Source) : SourceStatus :=
  match s.status with
  | some st => st
  | none =>
    { state := HealthState.healthy, latency := 0, balance := 0, lastCheck := 0,
      errorCount := 0, lastError := "", consecutiveFail := 0, modelProviders := [] }

/-- Effective weight: weights below 1 count as 1 (`if w <= 0 { w = 1 }`). -/
def weightOf (s : Source) : Nat :=
  if s.weight ≤ 0 then 1 else s.weight.toNat

/-- Cumulative bucket walk of the `weighted` strategy. -/
def weightedWalk : List Source → Int → Option Source
  | [], _ => none
  | s :: rest, idx =>
    if idx < (weightOf s : Int) then some s else weightedWalk rest (idx - (weightOf s : Int))

theorem weightedWalk_mem (l : List Source) (idx : Int) (s : Source)
    (h : weightedWalk l idx = some s) : s ∈ l := by
  induction l generalizing idx with
  | nil => simp [weightedWalk] at h
  | cons x xs ih =>
    simp only [weightedWalk] at h
    split at h
    · cases h; simp
    · exact List.mem_cons_of_mem _ (ih _ h)

/-- `Router.roundRobin`: atomic index (incremented before use) modulo the
pool size. -/
def roundRobin (cands : List Source) (rrIndex : Nat) : Option Source :=
  if h : cands = [] then none
  else some (cands.get ⟨(rrIndex + 1) % cands.length,
    Nat.mod_lt _ (List.length_pos.mpr h)⟩)

/-- `Router.priority`: sort ascending by priority, then round-robin within
the tied top band. -/
def priorityStrategy (cands : List Source) (rrIndex : Nat) : Option Source :=
  match sortSrc (fun a b => a.priority ≤ b.priority) cands with
  | [] => none
  | top :: rest =>
    let sameRank := (top :: rest).takeWhile (fun s => s.priority = top.priority)
    if h : 1 < sameRank.length then
      some (sameRank.get ⟨(rrIndex + 1) % sameRank.length, Nat.mod_lt _ (by omega)⟩)
    else some top

/-- `Router.weighted`: advance the shared counter modulo the weight sum and
pick the owning bucket (falling back to the first candidate). -/
def weightedStrategy (cands : List Source) (rrIndex : Nat) : Option Source :=
  if cands = [] then none
  else
    let total := (cands.map weightOf).sum
    let idx : Int := ((rrIndex + 1) % total : Nat)
    match weightedWalk cands idx with
    | some s => some s
    | none => cands.head?

/-- `Router.leastLatency`: minimum status latency. -/
def leastLatencyStrategy (cands : List Source) : Option Source :=
  (sortSrc (fun a b => a.getStatus.latency ≤ b.getStatus.latency) cands).head?

/-- `Router.leastCost`: maximum status balance. -/
def leastCostStrategy (cands : List Source) : Option Source :=
  (sortSrc (fun a b => b.getStatus.balance ≤ a.getStatus.balance) cands).head?

/-- Strategy dispatch of `RouteRequest` (default: priority). -/
def pickByStrategy (strategy : String) (rrIndex : Nat) (cands : List Source) :
    Option Source :=
  if strategy = "round-robin" then roundRobin cands rrIndex
  else if strategy = "weighted" then weightedStrategy cands rrIndex
  else if strategy = "least-latency" then leastLatencyStrategy cands
  else if strategy = "least-cost" then leastCostStrategy cands
  else priorityStrategy cands rrIndex

/-- The failover-exclusion filter inside `RouteRequest`. -/
def applyExclude (cands : List Source) (exclude : List String) : List Source :=
  if exclude = [] then cands else cands.filter (fun s => s.id ∉ exclude)

/-- Shallow embedding of `Router.RouteRequest` (router.go lines 51-130):
capability filtering, FC degradation fallback before and after the
failover-exclusion filter, then strategy selection.  `none` models the
`no available source` error. -/
def RouteRequest (sources : List Source) (strategy : String) (rrIndex : Nat)
    (req : ChatCompletionRequest) (exclude : List String) : Option Source :=
  let needFC := req.hasTools
  let needThinking := req.hasThinking
  let needVision := req.hasVision
  let c0 := GetByCapability sources needFC needThinking needVision req.model
  let c1 := if c0 = [] ∧ needFC then
      GetByCapability sources false needThinking needVision req.model
    else c0
  let c2 := applyExclude c1 exclude
  let c3 := if c2 = [] ∧ needFC then
      applyExclude (GetByCapability sources false needThinking needVision req.model) exclude
    else c2
  if c3 = [] then none
  else pickByStrategy strategy rrIndex c3

theorem roundRobin_mem (cands : List Source) (rrIndex : Nat) (src : Source)
    (h : roundRobin cands rrIndex = some src) : src ∈ cands := by
  unfold roundRobin at h
  split at h
  · cases h
  · cases h; exact List.get_mem ..

theorem priorityStrategy_mem (cands : List Source) (rrIndex : Nat) (src : Source)
    (h : priorityStrategy cands rrIndex = some src) : src ∈ cands := by
  unfold priorityStrategy at h
  split at h
  · cases h
  · rename_i top rest hsort
    have hsub : ∀ x, x ∈ top :: rest → x ∈ cands := by
      intro x hx
      rw [← mem_sortSrc (fun a b => a.priority ≤ b.priority) x cands, hsort]
      exact hx
    simp only [] at h
    split at h
    · cases h
      exact hsub _ (List.takeWhile_prefix _ |>.subset (List.get_mem ..))
    · cases h
      exact hsub _ (List.mem_cons_self ..)

theorem weightedStrategy_mem (cands : List Source) (rrIndex : Nat) (src : Source)
    (h : weightedStrategy cands rrIndex = some src) : src ∈ cands := by
  unfold weightedStrategy at h
  split at h
  · cases h
  · simp only [] at h
    split at h
    · cases h; exact weightedWalk_mem _ _ _ (by assumption)
    · exact List.mem_of_mem_head? h

theorem leastLatencyStrategy_mem (cands : List Source) (src : Source)
    (h : leastLatencyStrategy cands = some src) : src ∈ cands := by
  unfold leastLatencyStrategy at h
  have := List.mem_of_mem_head? h
  rwa [mem_sortSrc] at this

theorem leastCostStrategy_mem (cands : List Source) (src : Source)
    (h : leastCostStrategy cands = some src) : src ∈ cands := by
  unfold leastCostStrategy at h
  have := List.mem_of_mem_head? h
  rwa [mem_sortSrc] at this

theorem pickByStrategy_mem (strategy : String) (rrIndex : Nat) (cands : List Source)
    (src : Source) (h : pickByStrategy strategy rrIndex cands = some src) :
    src ∈ cands := by
  unfold pickByStrategy at h
  repeat' split at h
  · exact roundRobin_mem _ _ _ h
  · exact weightedStrategy_mem _ _ _ h
  · exact leastLatencyStrategy_mem _ _ h
  · exact leastCostStrategy_mem _ _ h
  · exact priorityStrategy_mem _ _ _ h

theorem applyExclude_mem (cands : List Source) (exclude : List String) (src : Source)
    (h : src ∈ applyExclude cands exclude) : src ∈ cands ∧ src.id ∉ exclude := by
  unfold applyExclude at h
  split at h
  · rename_i he
    exact ⟨h, by simp [he]⟩
  · rw [List.mem_filter] at h
    exact ⟨h.1, by simpa using h.2⟩

theorem getByCap_model_filter (sources : List Source) (nf nt nv : Bool) (m : String)
    (src : Source) (h : src ∈ GetByCapability sources nf nt nv m) (hm : m ≠ "") :
    src.capabilities.models = [] ∨ m ∈ src.capabilities.models := by
  unfold GetByCapability at h
  rw [List.mem_filter] at h
  have h2 := h.2
  simp [getByCapAdmits, Source.supportsModel, hm] at h2
  tauto

theorem route_tail (P : List Source) (exclude : List String) (strategy : String)
    (rrIndex : Nat) (src : Source)
    (hR : (if applyExclude P exclude = [] then none
           else pickByStrategy strategy rrIndex (applyExclude P exclude)) = some src) :
    src ∈ P ∧ src.id ∉ exclude := by
  split at hR
  · cases hR
  · exact applyExclude_mem _ _ _ (pickByStrategy_mem _ _ _ _ hR)

/-- C3: for a request with `has_tools = true`, `RouteRequest` either fails
with the no-available error (`none`) or returns a source drawn from the
capability-filtered pool — the FC pool, or the non-FC pool reached through
the degradation fallback applied both before and after the exclusion
filter; the returned source is never in the exclude set, and (for a
non-empty requested model) never one whose allowed-model list is non-empty
yet omits the model. -/
theorem C3_router_fc_degradation (sources : List Source) (strategy : String)
    (rrIndex : Nat) (req : ChatCompletionRequest) (exclude : List String)
    (hT : req.hasTools = true) :
    RouteRequest sources strategy rrIndex req exclude = none ∨
    ∃ src, RouteRequest sources strategy rrIndex req exclude = some src ∧
      (src ∈ GetByCapability sources true req.hasThinking req.hasVision req.model ∨
       src ∈ GetByCapability sources false req.hasThinking req.hasVision req.model) ∧
      src.id ∉ exclude ∧
      (req.model ≠ "" →
        src.capabilities.models = [] ∨ req.model ∈ src.capabilities.models) := by
  cases hR : RouteRequest sources strategy rrIndex req exclude with
  | none => exact Or.inl rfl
  | some src =>
    right
    refine ⟨src, rfl, ?_⟩
    unfold RouteRequest at hR
    rw [hT] at hR
    simp only [eq_self_iff_true, and_true] at hR
    by_cases h0 : GetByCapability sources true req.hasThinking req.hasVision req.model = []
    · rw [if_pos h0, ite_self] at hR
      obtain ⟨hmem, hex⟩ := route_tail _ _ _ _ _ hR
      exact ⟨Or.inr hmem, hex, fun hm => getByCap_model_filter _ _ _ _ _ _ hmem hm⟩
    · rw [if_neg h0] at hR
      by_cases h2 : applyExclude
          (GetByCapability sources true req.hasThinking req.hasVision req.model) exclude = []
      · rw [if_pos h2] at hR
        obtain ⟨hmem, hex⟩ := route_tail _ _ _ _ _ hR
        exact ⟨Or.inr hmem, hex, fun hm => getByCap_model_filter _ _ _ _ _ _ hmem hm⟩
      · rw [if_neg h2] at hR
        obtain ⟨hmem, hex⟩ := route_tail _ _ _ _ _ hR
        exact ⟨Or.inl hmem, hex, fun hm => getByCap_model_filter _ _ _ _ _ _ hmem hm⟩

def c3Req : ChatCompletionRequest :=
  { model := "gpt-4", messages := [], stream := false,
    tools := [{ type := "function", function := { name := "get_weather" } }],
    functions := [], thinking := none }

def c3Src : Source :=
  { id := "s1", name := "s1", type := SourceType.openai, priority := 1, weight := 1,
    enabled := true,
    capabilities := { functionCalling := true, extendedThinking := false,
                      vision := false, models := ["gpt-4"] },
    cpa := none, status := none }

/-- Witness for C3: a concrete tools-bearing request routed over one
FC-capable source. -/
theorem C3_witness :
    RouteRequest [c3Src] "priority" 0 c3Req [] = none ∨
    ∃ src, RouteRequest [c3Src] "priority" 0 c3Req [] = some src ∧
      (src ∈ GetByCapability [c3Src] true c3Req.hasThinking c3Req.hasVision c3Req.model ∨
       src ∈ GetByCapability [c3Src] false c3Req.hasThinking c3Req.hasVision c3Req.model) ∧
      src.id ∉ ([] : List String) ∧
      (c3Req.model ≠ "" →
        src.capabilities.models = [] ∨ c3Req.model ∈ src.capabilities.models) :=
  C3_router_fc_degradation [c3Src] "priority" 0 c3Req [] (by decide)

/-! ### Claim C6 — the GetByCapability admission condition -/

/-- The admission predicate exactly as the claim words it: (a) enabled and
healthy; (b) allowed-model list empty or containing the requested model;
(c) capability demand satisfied, where for a `cpa` source thinking is never
satisfiable, FC is decided by `SupportsFCForModel` (detected or configured
provider) and vision by the declared bit, and for every other type FC and
thinking are decided by the declared bits. -/
def claimAdmits (needFC needThinking needVision : Bool) (modelName : String)
    (src : Source) : Bool :=
  src.enabled ∧ src.isHealthy ∧
  (src.capabilities.models = [] ∨ modelName ∈ src.capabilities.models) ∧
  (if src.type = SourceType.cpa then
    needThinking = false ∧ (needFC → src.supportsFCForModel modelName) ∧
      (needVision → src.capabilities.vision)
  else
    (needFC → src.capabilities.functionCalling) ∧
      (needThinking → src.capabilities.extendedThinking) ∧
      (needVision → src.capabilities.vision))

def c6Src : Source :=
  { id := "cpa1", name := "cpa1", type := SourceType.cpa, priority := 0, weight := 1,
    enabled := true,
    capabilities := { functionCalling := false, extendedThinking := false,
                      vision := false, models := [] },
    cpa := some { providers := ["gemini"], accountMode := "multi", autoDetect := true },
    status := some { state := HealthState.healthy, latency := 0, balance := 0,
                     lastCheck := 0, errorCount := 0, lastError := "",
                     consecutiveFail := 0, modelProviders := [("qwen-72b", "qwen")] } }

/-- C6 counterexample: an enabled healthy `cpa` source with an empty
allowed-model list satisfies every condition of the claim for a request
with no capability demand, yet `GetByCapability` rejects it, because the
model's detected provider (`qwen`) is not enabled in the CPA config — a
filter the claim's "if and only if" omits. -/
theorem C6_counterexample :
    claimAdmits false false false "qwen-72b" c6Src = true ∧
    GetByCapability [c6Src] false false false "qwen-72b" = [] :=
  ⟨by rfl, by rfl⟩

/-- The admission predicate as amended: the claim's conditions, plus the
provider gate for `cpa` sources (a detected provider must be enabled in
the CPA config, whatever the capability demand) and the qualification that
an empty requested model disables the model filter. -/
def amendedAdmits (needFC needThinking needVision : Bool) (modelName : String)
    (src : Source) : Bool :=
  src.enabled ∧ src.isHealthy ∧
  (modelName = "" ∨ src.capabilities.models = [] ∨ modelName ∈ src.capabilities.models) ∧
  (src.type = SourceType.cpa →
    (modelName ≠ "" → src.getProviderForModel modelName ≠ "" →
      src.isCPAProviderEnabled (src.getProviderForModel modelName))) ∧
  (if src.type = SourceType.cpa then
    needThinking = false ∧ (needFC → src.supportsFCForModel modelName) ∧
      (needVision → src.capabilities.vision)
  else
    (needFC → src.capabilities.functionCalling) ∧
      (needThinking → src.capabilities.extendedThinking) ∧
      (needVision → src.capabilities.vision))

set_option maxHeartbeats 1000000 in
/-- C6 (amended): `GetByCapability` admits a source if and only if it is
in the registry and satisfies `amendedAdmits`. -/
theorem C6_getByCapability_iff (sources : List Source)
    (needFC needThinking needVision : Bool) (modelName : String) (src : Source) :
    src ∈ GetByCapability sources needFC needThinking needVision modelName ↔
    src ∈ sources ∧ amendedAdmits needFC needThinking needVision modelName src = true := by
  unfold GetByCapability
  rw [List.mem_filter]
  constructor
  · rintro ⟨hm, hp⟩
    refine ⟨hm, ?_⟩
    simp only [getByCapAdmits, Source.supportsModel] at hp
    simp only [amendedAdmits]
    by_cases ht : src.type = SourceType.cpa <;> simp [ht] at hp ⊢ <;> tauto
  · rintro ⟨hm, hp⟩
    refine ⟨hm, ?_⟩
    simp only [amendedAdmits] at hp
    simp only [getByCapAdmits, Source.supportsModel]
    by_cases ht : src.type = SourceType.cpa <;> simp [ht] at hp ⊢ <;> tauto

/-! ### Health checker (health.go) — claims C8 and C10 -/

/-- Shallow embedding of `HealthChecker.checkSource` (health.go lines
125-160) acting on the status record.  `probeErr` is the outcome of the
single probe request (`probeSource` or `probeAndDetectCPAModels`);
`latency` and `now` are the measured duration and clock reading.  Latency
and last-check are written on every probe; a failure bumps the
consecutive-failure and error counters and turns the state unhealthy at
the threshold; a success resets the counter and the state. -/
def checkSource (st : SourceStatus) (probeErr : Option String)
    (failureThreshold : Int) (latency now : Int) : SourceStatus :=
  let st := { st with lastCheck := now, latency := latency }
  match probeErr with
  | some msg =>
    let st := { st with
      consecutiveFail := st.consecutiveFail + 1,
      errorCount := st.errorCount + 1,
      lastError := msg }
    if failureThreshold ≤ st.consecutiveFail then
      { st with state := HealthState.unhealthy }
    else st
  | none =>
    { st with consecutiveFail := 0, state := HealthState.healthy, lastError := "" }

/-- Iterated failing probes. -/
def iterFail (st0 : SourceStatus) (failureThreshold : Int) (msg : String)
    (latency now : Int) : Nat → SourceStatus
  | 0 => st0
  | k + 1 => checkSource (iterFail st0 failureThreshold msg latency now k)
      (some msg) failureThreshold latency now

theorem iterFail_count (st0 : SourceStatus) (F : Int) (msg : String) (lat now : Int)
    (h0 : st0.consecutiveFail = 0) :
    ∀ k : Nat, (iterFail st0 F msg lat now k).consecutiveFail = k := by
  intro k
  induction k with
  | zero => simpa [iterFail]
  | succ k ih =>
    simp only [iterFail, checkSource]
    split <;> simp [ih]

/-- C8: the per-source health state machine.  From a healthy status with a
zero consecutive-failure count, `k < F` consecutive probe failures leave
the state healthy, while the `F`-th failure turns it unhealthy (for any
threshold `F ≥ 1`); one successful probe restores `healthy` with the
counter reset to 0; and latency and last-check are written on every probe
regardless of outcome. -/
theorem C8_health_state_machine (F : Int) (hF : 1 ≤ F) (msg : String) (lat now : Int)
    (st0 : SourceStatus) (hstate : st0.state = HealthState.healthy)
    (hcount : st0.consecutiveFail = 0) :
    (∀ k : Nat, (k : Int) < F →
      (iterFail st0 F msg lat now k).state = HealthState.healthy) ∧
    (∀ k : Nat, (k : Int) = F →
      (iterFail st0 F msg lat now k).state = HealthState.unhealthy) ∧
    (∀ (st : SourceStatus) (lat2 now2 : Int),
      (checkSource st none F lat2 now2).state = HealthState.healthy ∧
      (checkSource st none F lat2 now2).consecutiveFail = 0) ∧
    (∀ (st : SourceStatus) (pe : Option String) (lat2 now2 : Int),
      (checkSource st pe F lat2 now2).latency = lat2 ∧
      (checkSource st pe F lat2 now2).lastCheck = now2) := by
  refine ⟨?_, ?_, ?_, ?_⟩
  · intro k
    induction k with
    | zero => intro _; simpa [iterFail]
    | succ k ih =>
      intro hk
      have hcnt := iterFail_count st0 F msg lat now hcount k
      simp only [iterFail, checkSource]
      have hlt : ¬ F ≤ ((iterFail st0 F msg lat now k).consecutiveFail + 1) := by
        rw [hcnt]; push_cast at hk ⊢; omega
      rw [if_neg hlt]
      exact ih (by push_cast at hk ⊢; omega)
  · intro k hk
    cases k with
    | zero => exfalso; push_cast at hk; omega
    | succ j =>
      have hcnt := iterFail_count st0 F msg lat now hcount j
      simp only [iterFail, checkSource]
      rw [if_pos (by rw [hcnt]; push_cast at hk ⊢; omega)]
  · intro st lat2 now2
    simp [checkSource]
  · intro st pe lat2 now2
    cases pe with
    | none => simp [checkSource]
    | some msg2 =>
      simp only [checkSource]
      split <;> simp

def c8Start : SourceStatus :=
  { state := HealthState.healthy, latency := 0, balance := 0, lastCheck := 0,
    errorCount := 0, lastError := "", consecutiveFail := 0, modelProviders := [] }

/-- Witness for C8 at threshold `F = 2`: one failure keeps the source
healthy, the second turns it unhealthy, a success recovers it, and latency
and last-check are always written. -/
theorem C8_witness :
    (iterFail c8Start 2 "boom" 5 9 1).state = HealthState.healthy ∧
    (iterFail c8Start 2 "boom" 5 9 2).state = HealthState.unhealthy ∧
    ((checkSource c8Start none 2 7 11).state = HealthState.healthy ∧
      (checkSource c8Start none 2 7 11).consecutiveFail = 0) ∧
    ((checkSource c8Start (some "boom") 2 7 11).latency = 7 ∧
      (checkSource c8Start (some "boom") 2 7 11).lastCheck = 11) :=
  ⟨(C8_health_state_machine 2 (by decide) "boom" 5 9 c8Start rfl rfl).1 1 (by decide),
   (C8_health_state_machine 2 (by decide) "boom" 5 9 c8Start rfl rfl).2.1 2 (by decide),
   (C8_health_state_machine 2 (by decide) "boom" 5 9 c8Start rfl rfl).2.2.1 c8Start 7 11,
   (C8_health_state_machine 2 (by decide) "boom" 5 9 c8Start rfl rfl).2.2.2 c8Start
     (some "boom") 7 11⟩

/-! ### Claim C10 — TestConnection and the monitor context -/

/-- Health checker runtime, abstracted for cancellation reasoning: the
background context `h.ctx` is a liveness bit (`true` = not cancelled).
`probeSource` builds its HTTP request on `h.ctx`
(`http.NewRequestWithContext(h.ctx, ...)`), so the probe can succeed only
while that context is alive and the source is reachable. -/
structure HealthChecker where
  ctxAlive : Bool

/-- Shallow model of `HealthChecker.probeSource`: the request is issued on
the monitor context, so it fails whenever the context is cancelled and
otherwise reports the source's reachability. -/
def probeSource (hc : HealthChecker) (reachable : Bool) : Bool :=
  hc.ctxAlive && reachable

/-- Shallow embedding of `HealthChecker.TestConnection` (health.go lines
343-345): it simply delegates to `probeSource` — on the monitor's own
context. -/
def TestConnection (hc : HealthChecker) (reachable : Bool) : Bool :=
  probeSource hc reachable

/-- `HealthChecker.Stop` cancels the monitor context. -/
def stopChecker (_ : HealthChecker) : HealthChecker :=
  { ctxAlive := false }

/-- C10 counterexample: after the monitor is stopped, `TestConnection`
fails even for a reachable source, refuting the claim that the
admin-triggered test runs on a fresh context independent of the
monitor. -/
theorem C10_counterexample :
    TestConnection (stopChecker { ctxAlive := true }) true = false := rfl

/-- C10 (amended): `TestConnection` delegates to `probeSource` on the
monitor's background context rather than a fresh one; while the monitor
runs it reports reachability, but once the monitor is stopped it fails for
every source until the context is reset. -/
theorem C10_testConnection_on_monitor_ctx (hc : HealthChecker) (reachable : Bool) :
    TestConnection hc reachable = probeSource hc reachable ∧
    (hc.ctxAlive = true → TestConnection hc reachable = reachable) ∧
    TestConnection (stopChecker hc) reachable = false := by
  refine ⟨rfl, ?_, by simp [TestConnection, probeSource, stopChecker]⟩
  intro h
  simp [TestConnection, probeSource, h]

/-- Witness for C10 (amended) at a live monitor and a reachable source. -/
theorem C10_witness :
    TestConnection { ctxAlive := true } true = true :=
  (C10_testConnection_on_monitor_ctx { ctxAlive := true } true).2.1 rfl

/-! ### Tool detector (tooldetect.go) — claim C9 -/

/-- ASCII whitespace trimmed by `strings.TrimSpace` (the Unicode cases of
`unicode.IsSpace` beyond ASCII are not modelled). -/
def isGoSpace (c : Char) : Bool :=
  c = ' ' ∨ c = '\t' ∨ c = '\n' ∨ c = '\r' ∨ c = '\x0b' ∨ c = '\x0c'

/-- Character-level two-sided trim. -/
def trimChars (l : List Char) : List Char :=
  ((l.dropWhile isGoSpace).reverse.dropWhile isGoSpace).reverse

/-- `strings.TrimSpace`. -/
def goTrimSpace (s : String) : String := ⟨trimChars s.data⟩

/-- `strings.ToLower`, restricted to ASCII case mapping. -/
def goToLower (s : String) : String := ⟨s.data.map Char.toLower⟩

/-- Substring test on character lists (`strings.Contains`). -/
def subOf : List Char → List Char → Bool
  | h, n => if n.isPrefixOf h then true else
      match h with
      | [] => false
      | _ :: t => subOf t n

/-- `strings.Contains`. -/
def goContains (s sub : String) : Bool := subOf s.data sub.data

/-- `normalizeToolName`: lowercased trimmed header value. -/
def normalizeToolName (name : String) : String := goToLower (goTrimSpace name)

/-- The two request headers `DetectTool` reads; a missing header reads as
the empty string, as with Go `http.Header.Get`. -/
structure Headers where
  userAgent : String
  xClientName : String
deriving DecidableEq, Repr

/-- The fixed ordered User-Agent pattern list of `DetectTool`. -/
def uaPatterns : List (String × String) :=
  [("cursor", "cursor"), ("claude-code", "claude-code"), ("codex-cli", "codex-cli"),
   ("continue", "continue"), ("copilot", "copilot"), ("openai-python", "openai-sdk"),
   ("openai-node", "openai-sdk"), ("anthropic-python", "anthropic-sdk"),
   ("anthropic-typescript", "anthropic-sdk")]

/-- First matching pattern, defaulting to `unknown`. -/
def firstMatch (ua : String) : List (String × String) → String
  | [] => "unknown"
  | (pat, nm) :: rest => if goContains ua pat then nm else firstMatch ua rest

/-- Shallow embedding of `core.DetectTool` (tooldetect.go): a non-empty
`X-Client-Name` header wins and is returned normalized; otherwise the
lowercased User-Agent is matched against the fixed ordered pattern list
with `unknown` as the default. -/
def DetectTool (h : Headers) : String :=
  let ua := goToLower h.userAgent
  if h.xClientName ≠ "" then normalizeToolName h.xClientName
  else firstMatch ua uaPatterns

/-- The closed result set named by the spec. -/
def closedToolSet : List String :=
  ["cursor", "claude-code", "codex-cli", "continue", "copilot", "openai-sdk",
   "anthropic-sdk", "unknown"]

/-- C9 counterexample: an arbitrary `X-Client-Name` value is passed
through (lowercased and trimmed), so the result escapes the closed set. -/
theorem C9_counterexample :
    DetectTool { userAgent := "", xClientName := "MyTool" } = "mytool" ∧
    "mytool" ∉ closedToolSet := by
  constructor
  · rfl
  · decide

/-- C9 (amended): when `X-Client-Name` is absent (empty), `DetectTool`
returns a member of the closed set, chosen by matching the lowercased
User-Agent against the fixed ordered pattern list with `unknown` as the
default; when `X-Client-Name` is non-empty its lowercased trimmed value is
returned verbatim and wins over User-Agent matching — but that value is
not confined to the closed set. -/
theorem C9_detectTool_amended (h : Headers) :
    (h.xClientName = "" →
      DetectTool h = firstMatch (goToLower h.userAgent) uaPatterns ∧
      DetectTool h ∈ closedToolSet) ∧
    (h.xClientName ≠ "" → DetectTool h = normalizeToolName h.xClientName) := by
  constructor
  · intro he
    have hD : DetectTool h = firstMatch (goToLower h.userAgent) uaPatterns := by
      simp [DetectTool, he]
    refine ⟨hD, ?_⟩
    rw [hD]
    generalize goToLower h.userAgent = ua
    simp only [uaPatterns, firstMatch]
    split_ifs <;> decide
  · intro hne
    simp [DetectTool, hne]

/-- Witness for C9 (amended): a Cursor User-Agent with no client-name
header maps to `cursor`; an explicit header wins. -/
theorem C9_witness :
    (DetectTool { userAgent := "Cursor/1.2", xClientName := "" } =
        firstMatch (goToLower "Cursor/1.2") uaPatterns ∧
      DetectTool { userAgent := "Cursor/1.2", xClientName := "" } ∈ closedToolSet) ∧
    DetectTool { userAgent := "Cursor/1.2", xClientName := " Continue " } =
      normalizeToolName " Continue " :=
  ⟨(C9_detectTool_amended { userAgent := "Cursor/1.2", xClientName := "" }).1 rfl,
   (C9_detectTool_amended { userAgent := "Cursor/1.2", xClientName := " Continue " }).2
     (by decide)⟩

/-! ### Streaming path of the proxy executor (proxy.go) — claim C7 -/

/-- String prefix test (`strings.HasPrefix`). -/
def goHasPre (pre s : String) : Bool := pre.data.isPrefixOf s.data

/-- Remove a leading prefix when present (`strings.TrimPrefix`). -/
def goDropPre (pre s : String) : String :=
  if goHasPre pre s then ⟨s.data.drop pre.data.length⟩ else s

/-- Outcome of one upstream streaming attempt as seen by
`handleStreamRequest`: a transport error from `client.Do`, a non-200
status, or a 200 reply whose body yields `lines` (complete lines read by
`ReadString`) and then terminates cleanly (`io.EOF`, `cleanEOF = true`) or
with a mid-stream read error (`cleanEOF = false`). -/
inductive UpstreamOutcome where
  | transportError
  | badStatus (code : Int)
  | ok (lines : List String) (cleanEOF : Bool)
deriving DecidableEq, Repr

/-- What `handleStreamRequest` produces: its boolean return value (`true`
means the executor must not retry), the SSE data payloads forwarded to the
client, whether `logStreamRequest` ran, and the success bit of the log row
when it did. -/
structure StreamResult where
  success : Bool
  written : List String
  logged : Bool
  logSuccessBit : Bool
deriving DecidableEq, Repr

/-- The SSE forwarding loop (proxy.go lines 216-250): data lines are
forwarded, `[DONE]` is forwarded and terminates the loop (second component
`true`), blank and non-data lines are skipped. -/
def streamLoop : List String → List String × Bool
  | [] => ([], false)
  | line :: rest =>
    let l := goTrimSpace line
    if l = "" then streamLoop rest
    else if goHasPre "data: " l then
      let data := goDropPre "data: " l
      if data = "[DONE]" then (["[DONE]"], true)
      else
        let w := streamLoop rest
        (data :: w.1, w.2)
    else streamLoop rest

/-- Shallow embedding of `handleStreamRequest` (proxy.go lines 182-259):
transport errors and non-200 statuses return `false` (failover allowed);
once the body streams, the handler always returns `true`, and
`logStreamRequest` (success bit hard-coded `true`) runs only when the loop
ends through `[DONE]` or a clean EOF — a mid-stream read error returns
`true` immediately, writing no log row. -/
def handleStreamRequest : UpstreamOutcome → StreamResult
  | UpstreamOutcome.transportError =>
    { success := false, written := [], logged := false, logSuccessBit := false }
  | UpstreamOutcome.badStatus _ =>
    { success := false, written := [], logged := false, logSuccessBit := false }
  | UpstreamOutcome.ok lines cleanEOF =>
    let w := streamLoop lines
    if w.2 then { success := true, written := w.1, logged := true, logSuccessBit := true }
    else if cleanEOF then
      { success := true, written := w.1, logged := true, logSuccessBit := true }
    else { success := true, written := w.1, logged := false, logSuccessBit := false }

/-- The executor's retry loop restricted to the stream path
(`ChatCompletions`): each attempt runs the handler and the loop stops at
the first `true` return. -/
def attemptsUsed : List UpstreamOutcome → Nat
  | [] => 0
  | o :: rest =>
    if (handleStreamRequest o).success then 1 else 1 + attemptsUsed rest

/-- C7 counterexample: an upstream that streams one data chunk and then
fails with a non-EOF read error.  SSE bytes were written and no failover
happens (the handler returns `true`), but no log row is written — the
claim that such a request "is still logged as a best-effort success" fails
on the code, which returns before `logStreamRequest` on a mid-stream read
error. -/
theorem C7_counterexample :
    (handleStreamRequest (UpstreamOutcome.ok ["data: chunk1"] false)).written =
      ["chunk1"] ∧
    (handleStreamRequest (UpstreamOutcome.ok ["data: chunk1"] false)).success = true ∧
    (handleStreamRequest (UpstreamOutcome.ok ["data: chunk1"] false)).logged = false := by
  decide

/-- C7 (amended): once the upstream has answered 200 and the SSE body is
being forwarded, the handler always reports success, so the executor makes
no further failover attempt for the request even if the upstream errors
mid-stream; a log row (with success bit true) is written exactly when the
stream terminates through a `[DONE]` event or a clean EOF — a non-EOF
mid-stream read error ends the stream without a log row. -/
theorem C7_stream_no_failover (lines : List String) (cleanEOF : Bool)
    (rest : List UpstreamOutcome) :
    (handleStreamRequest (UpstreamOutcome.ok lines cleanEOF)).success = true ∧
    attemptsUsed (UpstreamOutcome.ok lines cleanEOF :: rest) = 1 ∧
    (handleStreamRequest (UpstreamOutcome.ok lines cleanEOF)).logged =
      ((streamLoop lines).2 || cleanEOF) ∧
    ((handleStreamRequest (UpstreamOutcome.ok lines cleanEOF)).logged = true →
      (handleStreamRequest (UpstreamOutcome.ok lines cleanEOF)).logSuccessBit = true) := by
  refine ⟨?_, ?_, ?_, ?_⟩
  · simp only [handleStreamRequest]
    split
    · rfl
    · split <;> rfl
  · simp only [attemptsUsed, handleStreamRequest]
    split
    · rfl
    · split <;> rfl
  · simp only [handleStreamRequest]
    split
    · simp [*]
    · split <;> simp [*]
  · simp only [handleStreamRequest]
    split
    · simp
    · split <;> simp

/-- Witness for C7 (amended): a stream that ends with `[DONE]` logs one
success row and uses exactly one attempt. -/
theorem C7_witness :
    (handleStreamRequest (UpstreamOutcome.ok ["data: [DONE]"] false)).success = true ∧
    attemptsUsed [UpstreamOutcome.ok ["data: [DONE]"] false] = 1 ∧
    (handleStreamRequest (UpstreamOutcome.ok ["data: [DONE]"] false)).logged =
      ((streamLoop ["data: [DONE]"]).2 || false) ∧
    (handleStreamRequest (UpstreamOutcome.ok ["data: [DONE]"] false)).logSuccessBit =
      true :=
  ⟨(C7_stream_no_failover ["data: [DONE]"] false []).1,
   (C7_stream_no_failover ["data: [DONE]"] false []).2.1,
   (C7_stream_no_failover ["data: [DONE]"] false []).2.2.1,
   (C7_stream_no_failover ["data: [DONE]"] false []).2.2.2 (by decide)⟩

/-! ### JSON machinery for the FC compatibility layer (fc_compat.go) -/

/-- Opening brace character (written via its code point to keep JSON text
representable). -/
def lbrace : Char := Char.ofNat 123

/-- Closing brace character. -/
def rbrace : Char := Char.ofNat 125

/-- JSON whitespace. -/
def jWs (c : Char) : Bool := c = ' ' ∨ c = '\t' ∨ c = '\n' ∨ c = '\r'

/-- Skip JSON whitespace. -/
def skipWs (l : List Char) : List Char := l.dropWhile jWs

/-- Expect a literal keyword tail (`rue` of `true`, etc.). -/
def dropLit (lit : String) (l : List Char) : Option (List Char) :=
  if lit.data.isPrefixOf l then some (l.drop lit.data.length) else none

/-- Hexadecimal digit value. -/
def hexVal (c : Char) : Option Nat :=
  if '0' ≤ c ∧ c ≤ '9' then some (c.toNat - '0'.toNat)
  else if 'a' ≤ c ∧ c ≤ 'f' then some (c.toNat - 'a'.toNat + 10)
  else if 'A' ≤ c ∧ c ≤ 'F' then some (c.toNat - 'A'.toNat + 10)
  else none

/-- One or more decimal digits. -/
def scanDigits (l : List Char) : Option (List Char) :=
  let d := l.takeWhile (fun c => c.isDigit)
  if d = [] then none else some (l.drop d.length)

/-- A JSON number (sign, integer part, optional fraction and exponent;
the leading-zero restriction of strict JSON is not enforced). -/
def scanNumber (l : List Char) : Option (List Char) := do
  let l := if l.head? = some '-' then l.tail else l
  let l ← scanDigits l
  let l ← match l with
    | c :: r => if c = '.' then scanDigits r else pure (c :: r)
    | [] => pure ([] : List Char)
  match l with
  | c :: r =>
    if c = 'e' ∨ c = 'E' then
      let r := if r.head? = some '+' ∨ r.head? = some '-' then r.tail else r
      scanDigits r
    else pure (c :: r)
  | [] => pure ([] : List Char)

/-- Body of a JSON string literal, after the opening quote: returns the
unescaped content and the remainder after the closing quote. -/
def parseStrBody : Nat → List Char → Option (List Char × List Char)
  | 0, _ => none
  | _, [] => none
  | Nat.succ fuel, c :: rest =>
    if c = '"' then some ([], rest)
    else if c = '\\' then
      match rest with
      | [] => none
      | e :: r2 =>
        let esc : Option (Char × List Char) :=
          if e = '"' then some ('"', r2)
          else if e = '\\' then some ('\\', r2)
          else if e = '/' then some ('/', r2)
          else if e = 'b' then some ('\x08', r2)
          else if e = 'f' then some ('\x0c', r2)
          else if e = 'n' then some ('\n', r2)
          else if e = 'r' then some ('\r', r2)
          else if e = 't' then some ('\t', r2)
          else if e = 'u' then
            match r2 with
            | h1 :: h2 :: h3 :: h4 :: r3 =>
              match hexVal h1, hexVal h2, hexVal h3, hexVal h4 with
              | some v1, some v2, some v3, some v4 =>
                some (Char.ofNat (4096 * v1 + 256 * v2 + 16 * v3 + v4), r3)
              | _, _, _, _ => none
            | _ => none
          else none
        match esc with
        | some (ch, r3) =>
          match parseStrBody fuel r3 with
          | some (content, rest2) => some (ch :: content, rest2)
          | none => none
        | none => none
    else if c.toNat < 32 then none
    else
      match parseStrBody fuel rest with
      | some (content, rest2) => some (c :: content, rest2)
      | none => none

mutual

/-- Skip one JSON value (fueled recursive descent), returning the rest of
the input; `none` on malformed input.  Mirrors what `encoding/json`
accepts for an arbitrary value. -/
def skipValue : Nat → List Char → Option (List Char)
  | 0, _ => none
  | Nat.succ fuel, l =>
    match skipWs l with
    | [] => none
    | c :: rest =>
      if c = '"' then
        match parseStrBody (rest.length + 1) rest with
        | some pr => some pr.2
        | none => none
      else if c = lbrace then
        match skipWs rest with
        | c2 :: r2 =>
          if c2 = rbrace then some r2 else skipMembers1 fuel rest
        | [] => none
      else if c = '[' then
        match skipWs rest with
        | c2 :: r2 =>
          if c2 = ']' then some r2 else skipElems1 fuel rest
        | [] => none
      else if c = 't' then dropLit "rue" rest
      else if c = 'f' then dropLit "alse" rest
      else if c = 'n' then dropLit "ull" rest
      else if c = '-' ∨ c.isDigit then scanNumber (c :: rest)
      else none

/-- Skip one or more `"key": value` members and the closing brace. -/
def skipMembers1 : Nat → List Char → Option (List Char)
  | 0, _ => none
  | Nat.succ fuel, l =>
    match skipWs l with
    | c :: r0 =>
      if c = '"' then
        match parseStrBody (r0.length + 1) r0 with
        | some pr =>
          match skipWs pr.2 with
          | ':' :: r2 =>
            match skipValue fuel r2 with
            | some r3 =>
              match skipWs r3 with
              | ',' :: r4 => skipMembers1 fuel r4
              | c2 :: r4 => if c2 = rbrace then some r4 else none
              | [] => none
            | none => none
          | _ => none
        | none => none
      else none
    | [] => none

/-- Skip one or more array elements and the closing bracket. -/
def skipElems1 : Nat → List Char → Option (List Char)
  | 0, _ => none
  | Nat.succ fuel, l =>
    match skipValue fuel l with
    | some r1 =>
      match skipWs r1 with
      | ',' :: r2 => skipElems1 fuel r2
      | ']' :: r2 => some r2
      | _ => none
    | none => none

end

/-- `json.Valid`: one complete value, nothing but whitespace after it. -/
def jsonValid (s : String) : Bool :=
  match skipValue (s.data.length + 1) s.data with
  | some rest => skipWs rest = []
  | none => false

/-- Last index of a pattern in a character list (`strings.LastIndex`;
character indices, which agree with Go byte indices for the ASCII patterns
used here). -/
def lastIdxOf (h n : List Char) : Option Nat :=
  ((List.range (h.length + 1)).filter (fun i => n.isPrefixOf (h.drop i))).getLast?

/-- Shallow embedding of `stripCodeFence` (fc_compat.go): trim, remove an
optional leading fence with its `json` info string, drop everything from
the last closing fence, trim again. -/
def stripCodeFence (text : String) : String :=
  let s := goTrimSpace text
  if ¬ goHasPre "```" s then s
  else
    let s := goDropPre "```json" s
    let s := goDropPre "```JSON" s
    let s := goDropPre "```" s
    let s := match lastIdxOf s.data "```".data with
      | some idx => (⟨s.data.take idx⟩ : String)
      | none => s
    goTrimSpace s

/-- Decoded `fcCompatToolCall`: `arguments` holds the raw bytes captured by
the `json.RawMessage` field (empty when the field is absent; the literal
text `null` when the field is JSON null, exactly as `RawMessage` stores
it). -/
structure FcToolCall where
  name : String
  arguments : String
deriving DecidableEq, Repr

/-- Decoded `fcCompatPayload`. -/
structure FcPayload where
  toolCall : Option FcToolCall
  final : String
deriving DecidableEq, Repr

mutual

/-- One or more members of the `tool_call` object: `name` must be a string
(null leaves it unset), `arguments` captures the raw value span, unknown
keys are skipped.  Mirrors `json.Unmarshal` into `fcCompatToolCall`
(field names matched exactly; Go's case-insensitive fallback is not
modelled). -/
def decodeTCMembers1 : Nat → List Char → FcToolCall → Option (FcToolCall × List Char)
  | 0, _, _ => none
  | Nat.succ fuel, l, acc =>
    match skipWs l with
    | c :: r0 =>
      if c = '"' then
        match parseStrBody (r0.length + 1) r0 with
        | some (key, r1) =>
          match skipWs r1 with
          | ':' :: r2 =>
            if (⟨key⟩ : String) = "name" then
              match skipWs r2 with
              | '"' :: vr =>
                match parseStrBody (vr.length + 1) vr with
                | some (nm, r3) => decodeTCTail fuel { acc with name := ⟨nm⟩ } r3
                | none => none
              | 'n' :: vr =>
                match dropLit "ull" vr with
                | some r3 => decodeTCTail fuel acc r3
                | none => none
              | _ => none
            else if (⟨key⟩ : String) = "arguments" then
              let v := skipWs r2
              match skipValue (v.length + 1) v with
              | some r3 =>
                decodeTCTail fuel
                  { acc with arguments := ⟨v.take (v.length - r3.length)⟩ } r3
              | none => none
            else
              match skipValue fuel r2 with
              | some r3 => decodeTCTail fuel acc r3
              | none => none
          | _ => none
        | none => none
      else none
    | [] => none

/-- After one decoded member of `tool_call`: continue at a comma or stop at
the closing brace. -/
def decodeTCTail : Nat → FcToolCall → List Char → Option (FcToolCall × List Char)
  | 0, _, _ => none
  | Nat.succ fuel, acc, l =>
    match skipWs l with
    | ',' :: r => decodeTCMembers1 fuel r acc
    | c :: r => if c = rbrace then some (acc, r) else none
    | [] => none

end

/-- Decode the `tool_call` value: JSON null leaves the pointer nil, an
object yields a (possibly empty) tool call, anything else is an
unmarshalling error. -/
def decodeTCValue (fuel : Nat) (l : List Char) (prev : Option FcToolCall) :
    Option (Option FcToolCall × List Char) :=
  match skipWs l with
  | 'n' :: vr =>
    match dropLit "ull" vr with
    | some r3 => some (prev, r3)
    | none => none
  | c :: vr =>
    if c = lbrace then
      match skipWs vr with
      | c2 :: r2 =>
        if c2 = rbrace then some (some { name := "", arguments := "" }, r2)
        else
          match decodeTCMembers1 fuel vr { name := "", arguments := "" } with
          | some (tc, r3) => some (some tc, r3)
          | none => none
      | [] => none
    else none
  | [] => none

mutual

/-- One or more members of the top-level payload object. -/
def decodePLMembers1 : Nat → List Char → FcPayload → Option (FcPayload × List Char)
  | 0, _, _ => none
  | Nat.succ fuel, l, acc =>
    match skipWs l with
    | c :: r0 =>
      if c = '"' then
        match parseStrBody (r0.length + 1) r0 with
        | some (key, r1) =>
          match skipWs r1 with
          | ':' :: r2 =>
            if (⟨key⟩ : String) = "tool_call" then
              match decodeTCValue fuel r2 acc.toolCall with
              | some (tc, r3) => decodePLTail fuel { acc with toolCall := tc } r3
              | none => none
            else if (⟨key⟩ : String) = "final" then
              match skipWs r2 with
              | '"' :: vr =>
                match parseStrBody (vr.length + 1) vr with
                | some (fs, r3) => decodePLTail fuel { acc with final := ⟨fs⟩ } r3
                | none => none
              | 'n' :: vr =>
                match dropLit "ull" vr with
                | some r3 => decodePLTail fuel acc r3
                | none => none
              | _ => none
            else
              match skipValue fuel r2 with
              | some r3 => decodePLTail fuel acc r3
              | none => none
          | _ => none
        | none => none
      else none
    | [] => none

/-- After one decoded payload member. -/
def decodePLTail : Nat → FcPayload → List Char → Option (FcPayload × List Char)
  | 0, _, _ => none
  | Nat.succ fuel, acc, l =>
    match skipWs l with
    | ',' :: r => decodePLMembers1 fuel r acc
    | c :: r => if c = rbrace then some (acc, r) else none
    | [] => none

end

/-- Shallow embedding of `json.Unmarshal([]byte(clean), &payload)`: a JSON
object (or null) with nothing but whitespace after it; any other shape is
an error. -/
def decodePayload (s : String) : Option FcPayload :=
  match skipWs s.data with
  | 'n' :: rest =>
    match dropLit "ull" rest with
    | some r => if skipWs r = [] then some { toolCall := none, final := "" } else none
    | none => none
  | c :: rest =>
    if c = lbrace then
      let r0 :=
        match skipWs rest with
        | c2 :: r2 =>
          if c2 = rbrace then some (({ toolCall := none, final := "" } : FcPayload), r2)
          else decodePLMembers1 (s.data.length + 1) rest { toolCall := none, final := "" }
        | [] => none
      match r0 with
      | some (p, r) => if skipWs r = [] then some p else none
      | none => none
    else none
  | [] => none

/-- Token usage (`model.Usage`). -/
structure Usage where
  promptTokens : Int
  completionTokens : Int
  totalTokens : Int
deriving DecidableEq, Repr

/-- Response choice (`model.Choice`; the streaming `delta` field is not
needed here). -/
structure Choice where
  index : Int
  message : Option Message
  finishReason : String
deriving DecidableEq, Repr

/-- Chat response (`model.ChatCompletionResponse`). -/
structure ChatCompletionResponse where
  id : String
  object : String
  created : Int
  model : String
  choices : List Choice
  usage : Option Usage
deriving DecidableEq, Repr

/-- A deterministic rendering used where Go falls back to
`json.Marshal(v)` for non-text content parts; its exact shape is
irrelevant to the claims. -/
def partsFallbackJson (ps : List (String × String)) : String :=
  "[" ++ String.intercalate "," (ps.map (fun p => "(" ++ p.1 ++ ")")) ++ "]"

/-- Shallow embedding of `extractContentText`: a string is returned as is;
a part list contributes its `text`-typed parts joined by newlines, falling
back to a marshalled rendering; JSON null marshals to `null`. -/
def extractContentText (c : MsgContent) : String :=
  match c with
  | MsgContent.str s => s
  | MsgContent.parts ps =>
    let texts := (ps.filter (fun p => p.1 = "text")).map (fun p => p.2)
    let texts := texts.filter (fun t => t ≠ "")
    if texts ≠ [] then String.intercalate "\n" texts else partsFallbackJson ps
  | MsgContent.nullc => "null"

/-- Shallow embedding of `extractResponseText`: the trimmed text of the
first choice's message, empty when absent. -/
def extractResponseText (resp : ChatCompletionResponse) : String :=
  match resp.choices with
  | [] => ""
  | ch :: _ =>
    match ch.message with
    | none => ""
    | some m => goTrimSpace (extractContentText m.content)

/-- Minimal JSON string escaping for the `\x7b"input":…\x7d` wrapper
(this code path is unreachable for arguments decoded from valid JSON, so
only the basic escapes are modelled). -/
def escapeJsonStr (s : String) : String :=
  "\"" ++ ⟨s.data.foldr (fun c acc =>
    if c = '"' then '\\' :: '"' :: acc
    else if c = '\\' then '\\' :: '\\' :: acc
    else if c = '\n' then '\\' :: 'n' :: acc
    else if c = '\t' then '\\' :: 't' :: acc
    else if c = '\r' then '\\' :: 'r' :: acc
    else c :: acc) []⟩ ++ "\""

/-- `json.Marshal(map[string]string\x7b"input": s\x7d)`. -/
def wrapInputArgs (s : String) : String :=
  "\x7b\"input\":" ++ escapeJsonStr s ++ "\x7d"

/-- The argument canonicalization inside `parseCompatOutput`: trim; missing
or `null` becomes `\x7b\x7d`; a non-JSON remainder is wrapped as
`\x7b"input":…\x7d`; valid JSON is kept as is. -/
def canonArgs (raw : String) : String :=
  let args := goTrimSpace raw
  let args := if args = "" ∨ args = "null" then "\x7b\x7d" else args
  if ¬ jsonValid args then wrapInputArgs args else args

/-- Result quadruple of `parseCompatOutput`. -/
structure ParsedOut where
  toolName : String
  toolArgs : String
  final : String
  ok : Bool
deriving DecidableEq, Repr

/-- Shallow embedding of `parseCompatOutput` (fc_compat.go lines 662-705):
strip an optional code fence, unmarshal, and return either a canonicalized
tool call (non-empty trimmed name), a trimmed `final` string, or failure. -/
def parseCompatOutput (text : String) : ParsedOut :=
  let clean := stripCodeFence text
  if clean = "" then { toolName := "", toolArgs := "", final := "", ok := false }
  else
    match decodePayload clean with
    | none => { toolName := "", toolArgs := "", final := "", ok := false }
    | some p =>
      match p.toolCall with
      | some tc =>
        if goTrimSpace tc.name ≠ "" then
          { toolName := goTrimSpace tc.name, toolArgs := canonArgs tc.arguments,
            final := "", ok := true }
        else if goTrimSpace p.final ≠ "" then
          { toolName := "", toolArgs := "", final := goTrimSpace p.final, ok := true }
        else { toolName := "", toolArgs := "", final := "", ok := false }
      | none =>
        if goTrimSpace p.final ≠ "" then
          { toolName := "", toolArgs := "", final := goTrimSpace p.final, ok := true }
        else { toolName := "", toolArgs := "", final := "", ok := false }

/-- The fresh assistant message `buildCompatResponse` starts from. -/
def assistantMsg (content : MsgContent) (tcs : List ToolCall) : Message :=
  { role := "assistant", content := content, name := "", toolCalls := tcs,
    toolCallId := "", functionCall := none }

/-- `fallbackChatID`. -/
def fallbackChatID (resp : ChatCompletionResponse) (nowNano : Int) : String :=
  if goTrimSpace resp.id ≠ "" then resp.id else "chatcmpl-fusionapi-" ++ toString nowNano

/-- `fallbackChatObject`. -/
def fallbackChatObject (resp : ChatCompletionResponse) : String :=
  if goTrimSpace resp.object ≠ "" then resp.object else "chat.completion"

/-- `fallbackChatCreated`. -/
def fallbackChatCreated (resp : ChatCompletionResponse) (nowSec : Int) : Int :=
  if 0 < resp.created then resp.created else nowSec

/-- Shallow embedding of `buildCompatResponse` (fc_compat.go lines
616-660).  `nowNano`/`nowSec` stand for the two clock readings Go takes
for generated identifiers and timestamps. -/
def buildCompatResponse (nowNano nowSec : Int) (up : ChatCompletionResponse) :
    ChatCompletionResponse :=
  let text := extractResponseText up
  let po := parseCompatOutput text
  let header : ChatCompletionResponse :=
    { id := fallbackChatID up nowNano, object := fallbackChatObject up,
      created := fallbackChatCreated up nowSec, model := up.model,
      choices := [], usage := up.usage }
  if po.ok ∧ po.toolName ≠ "" then
    { header with choices := [
        { index := 0,
          message := some (assistantMsg (MsgContent.str "")
            [{ id := "call_" ++ toString nowNano, type := "function",
               function := { name := po.toolName, arguments := po.toolArgs } }]),
          finishReason := "tool_calls" }] }
  else
    let finalText := if po.final = "" then text else po.final
    let finalText := if finalText = "" then "(empty response)" else finalText
    { header with choices := [
        { index := 0, message := some (assistantMsg (MsgContent.str finalText) []),
          finishReason := "stop" }] }

/-! ### Claim C4 — the tool-call projection of the compat layer -/

/-- C4: for every upstream reply whose text — after stripping an optional
code fence — unmarshals as a payload carrying a `tool_call` with a
non-empty (trimmed) name, the projected response has exactly one choice
whose message carries exactly one tool call: type `function`, that name,
and canonicalized arguments; `finish_reason` is `tool_calls`.  The
canonicalization sends missing or `null` arguments to `\x7b\x7d` and keeps a
valid JSON argument text unchanged (after trimming). -/
theorem C4_compat_tool_call_projection (up : ChatCompletionResponse)
    (nowNano nowSec : Int) (p : FcPayload) (tc : FcToolCall)
    (h1 : decodePayload (stripCodeFence (extractResponseText up)) = some p)
    (h2 : p.toolCall = some tc)
    (h3 : goTrimSpace tc.name ≠ "") :
    (buildCompatResponse nowNano nowSec up).choices = [
      { index := 0,
        message := some (assistantMsg (MsgContent.str "")
          [{ id := "call_" ++ toString nowNano, type := "function",
             function := { name := goTrimSpace tc.name,
                           arguments := canonArgs tc.arguments } }]),
        finishReason := "tool_calls" }] ∧
    ((goTrimSpace tc.arguments = "" ∨ goTrimSpace tc.arguments = "null") →
      canonArgs tc.arguments = "\x7b\x7d") ∧
    (¬ (goTrimSpace tc.arguments = "" ∨ goTrimSpace tc.arguments = "null") →
      jsonValid (goTrimSpace tc.arguments) = true →
      canonArgs tc.arguments = goTrimSpace tc.arguments) := by
  have hclean : ¬ stripCodeFence (extractResponseText up) = "" := by
    intro h
    have hnone : decodePayload "" = none := by decide
    rw [h, hnone] at h1
    exact Option.noConfusion h1
  have hpo : parseCompatOutput (extractResponseText up) =
      { toolName := goTrimSpace tc.name, toolArgs := canonArgs tc.arguments,
        final := "", ok := true } := by
    unfold parseCompatOutput
    simp only [hclean, if_false, h1, h2]
    rw [if_pos h3]
  refine ⟨?_, ?_, ?_⟩
  · unfold buildCompatResponse
    simp only [hpo]
    simp [h3]
  · intro hnull
    unfold canonArgs
    simp only [if_pos hnull]
    have hv : jsonValid "\x7b\x7d" = true := by decide
    simp [hv]
  · intro hnn hv
    unfold canonArgs
    simp only [if_neg hnn]
    simp [hv]

def c4Upstream : ChatCompletionResponse :=
  { id := "chatcmpl-123", object := "chat.completion", created := 7, model := "gpt-4",
    choices := [
      { index := 0,
        message := some
          { role := "assistant",
            content := MsgContent.str
              "```json\n\x7b\"tool_call\":\x7b\"name\":\"get_weather\",\"arguments\":\x7b\"city\":\"NYC\"\x7d\x7d\x7d\n```",
            name := "", toolCalls := [], toolCallId := "", functionCall := none },
        finishReason := "stop" }],
    usage := none }

def c4Payload : FcPayload :=
  { toolCall := some { name := "get_weather", arguments := "\x7b\"city\":\"NYC\"\x7d" },
    final := "" }

/-- Witness for C4: the fenced `get_weather` reply of scenario S6 projects
to one `tool_calls` choice with the arguments kept verbatim. -/
theorem C4_witness :
    (buildCompatResponse 42 7 c4Upstream).choices = [
      { index := 0,
        message := some (assistantMsg (MsgContent.str "")
          [{ id := "call_" ++ toString (42 : Int), type := "function",
             function := { name := goTrimSpace "get_weather",
                           arguments := canonArgs "\x7b\"city\":\"NYC\"\x7d" } }]),
        finishReason := "tool_calls" }] ∧
    canonArgs "\x7b\"city\":\"NYC\"\x7d" = goTrimSpace "\x7b\"city\":\"NYC\"\x7d" :=
  ⟨(C4_compat_tool_call_projection c4Upstream 42 7 c4Payload
      { name := "get_weather", arguments := "\x7b\"city\":\"NYC\"\x7d" }
      (by decide) (by decide) (by decide)).1,
   (C4_compat_tool_call_projection c4Upstream 42 7 c4Payload
      { name := "get_weather", arguments := "\x7b\"city\":\"NYC\"\x7d" }
      (by decide) (by decide) (by decide)).2.2 (by decide) (by decide)⟩

end FusionAPI
